import Mathlib

/-!
Verification of the `V1DocumentStore` document store
(`gpt_index/old_docstore.py`).

The store is embedded shallowly:

* Python `dict`s are modelled as insertion-ordered association lists
  (`List (String × α)`).  `d.get(k)` is `dictGet`, `d[k] = v` is
  `dictInsert` (replace in place, else append — exactly Python's
  insertion-order semantics), `d.pop(k, None)` removes the key
  (`dictErase`), and `d1.update(d2)` is `dictUpdate`.
* The polymorphic record types (`Document` / `IndexStruct`) are external
  collaborators: the store only calls a fixed method set on them
  (`is_doc_id_none`, `get_doc_id`, `get_doc_hash`, `get_type`,
  `to_dict`, and `Document.from_dict`).  They are abstracted as a
  `RecordIface` bundle over an opaque record type `ρ` and an opaque
  serialized-payload type `δ`.
* Python exceptions are explicit values of `DocStoreError`.  Since the
  Python methods mutate the store in place before an exception may be
  raised, fallible mutators return the (possibly partially updated)
  store together with an optional error.
* `ref_doc_info` is a `defaultdict(dict)`: reading a missing key inserts
  an empty inner dict.  This side effect is modelled explicitly
  (`refDefaultGet`), so `get_document_hash` returns a value *and* the
  updated store.
-/

set_option autoImplicit false

namespace GptIndex

/-! ## Python dict operations on association lists -/

/-- `d.get(k, None)` on a Python dict: first (unique) matching key. -/
def dictGet {α : Type} (k : String) : List (String × α) → Option α
  | [] => none
  | (k', v) :: rest => if k' = k then some v else dictGet k rest

/-- `d[k] = v` on a Python dict: replace the entry in place if the key is
present, otherwise append at the end (insertion order). -/
def dictInsert {α : Type} (k : String) (v : α) : List (String × α) → List (String × α)
  | [] => [(k, v)]
  | (k', v') :: rest =>
    if k' = k then (k, v) :: rest else (k', v') :: dictInsert k v rest

/-- `d.pop(k, None)`'s effect on the dict: remove the key's entry. -/
def dictErase {α : Type} (k : String) (l : List (String × α)) : List (String × α) :=
  l.filter (fun p => p.1 ≠ k)

/-- `d1.update(d2)` on Python dicts: insert every entry of `d2` into `d1`,
in `d2`'s order. -/
def dictUpdate {α : Type} (base other : List (String × α)) : List (String × α) :=
  other.foldl (fun acc p => dictInsert p.1 p.2 acc) base

/-! ## The data model -/

/-- The method set the store calls on its polymorphic records
(`Document` or `IndexStruct`), over an opaque record type `ρ` and an
opaque serialized-payload type `δ`.  `document_from_dict` is the class
method `Document.from_dict`. -/
structure RecordIface (ρ δ : Type) where
  is_doc_id_none : ρ → Bool
  get_doc_id : ρ → String
  get_doc_hash : ρ → String
  get_type : ρ → String
  to_dict : ρ → δ
  document_from_dict : δ → ρ

/-- `type_to_struct`: a registry mapping a type tag to the
`from_dict` deserializer of the corresponding `IndexStruct` class. -/
abbrev TypeRegistry (ρ δ : Type) := List (String × (δ → ρ))

/-- The distinct `ValueError`s the store raises (spec §7 names them
`MissingIdentifier`, `DuplicateIdentifier`, `NotFound`,
`UnregisteredType`; `UnregisteredType` covers both "no registry
supplied" and "tag not in the registry"). -/
inductive DocStoreError where
  | missingIdentifier : DocStoreError
  | duplicateIdentifier : String → DocStoreError
  | notFound : String → DocStoreError
  | registryAbsent : DocStoreError
  | unregisteredType : String → DocStoreError
  deriving DecidableEq, Repr

/-- Both deserialization failures are the spec's `UnregisteredType` kind. -/
def DocStoreError.isUnregisteredType : DocStoreError → Bool
  | .registryAbsent => true
  | .unregisteredType _ => true
  | _ => false

/-- Per-key metadata inner dict (`ref_doc_info[id]`): currently only the
`"doc_hash"` key is used, but the dict is generic. -/
abbrev RefInfo := List (String × String)

/-- The store: `docs` maps identifier to record, `ref_doc_info` maps
identifier to a metadata dict. -/
structure V1DocumentStore (ρ : Type) where
  docs : List (String × ρ)
  ref_doc_info : List (String × RefInfo)
  deriving Repr, DecidableEq

/-- A record's serialized dict as the store sees it: the reserved
`"__type__"` tag (absent in hand-written back-compat dicts) together
with the record's own opaque field payload. -/
abbrev SerializedDoc (δ : Type) := Option String × δ

/-- The serialized form of the whole store (`to_dict`'s output /
`from_dict`'s input): `ref_doc_info` is optional because `from_dict`
reads it with `docs_dict.get("ref_doc_info", {})`. -/
structure SerializedStore (δ : Type) where
  docs : List (String × SerializedDoc δ)
  ref_doc_info : Option (List (String × RefInfo))
  deriving Repr

namespace V1DocumentStore

variable {ρ δ : Type}

/-- `V1DocumentStore()`: empty store (dataclass defaults). -/
def new : V1DocumentStore ρ := ⟨[], []⟩

/-- `to_dict`: serialize each record via its own `to_dict` and set the
`"__type__"` key to the record's type tag; pass `ref_doc_info` as-is. -/
def to_dict (R : RecordIface ρ δ) (s : V1DocumentStore ρ) : SerializedStore δ :=
  { docs := s.docs.map (fun p => (p.1, (some (R.get_type p.2), R.to_dict p.2)))
    ref_doc_info := some s.ref_doc_info }

/-- The per-entry dispatch inside `from_dict`: a popped tag of
`"Document"` or `None` deserializes via `Document.from_dict`; any other
tag requires the registry and a matching key. -/
def from_dict_entry (R : RecordIface ρ δ) (reg : Option (TypeRegistry ρ δ))
    (e : SerializedDoc δ) : Except DocStoreError ρ :=
  match e.1 with
  | none => .ok (R.document_from_dict e.2)
  | some tag =>
    if tag = "Document" then .ok (R.document_from_dict e.2)
    else
      match reg with
      | none => .error .registryAbsent
      | some r =>
        match dictGet tag r with
        | none => .error (.unregisteredType tag)
        | some fd => .ok (fd e.2)

/-- The loop of `from_dict` over `docs_dict["docs"]`: stop at the first
failing entry. -/
def load_docs (R : RecordIface ρ δ) (reg : Option (TypeRegistry ρ δ)) :
    List (String × SerializedDoc δ) → Except DocStoreError (List (String × ρ))
  | [] => .ok []
  | (doc_id, e) :: rest =>
    match from_dict_entry R reg e with
    | .error err => .error err
    | .ok d =>
      match load_docs R reg rest with
      | .error err => .error err
      | .ok ds => .ok ((doc_id, d) :: ds)

/-- `from_dict`: deserialize every docs entry, then take `ref_doc_info`
from the input (defaulting to empty when the key is absent). -/
def from_dict (R : RecordIface ρ δ) (sd : SerializedStore δ)
    (reg : Option (TypeRegistry ρ δ)) : Except DocStoreError (V1DocumentStore ρ) :=
  match load_docs R reg sd.docs with
  | .error err => .error err
  | .ok ds => .ok ⟨ds, sd.ref_doc_info.getD []⟩

/-- `document_exists`: `doc_id in self.docs`. -/
def document_exists (s : V1DocumentStore ρ) (doc_id : String) : Bool :=
  (dictGet doc_id s.docs).isSome

/-- `self.ref_doc_info[doc_id]["doc_hash"] = doc_hash` via the
`defaultdict`: update (or create) the inner dict in place. -/
def refSetHash (m : List (String × RefInfo)) (doc_id doc_hash : String) :
    List (String × RefInfo) :=
  dictInsert doc_id (dictInsert "doc_hash" doc_hash ((dictGet doc_id m).getD [])) m

/-- One iteration of the `add_documents` loop. -/
def add_one (R : RecordIface ρ δ) (allow_update : Bool) (s : V1DocumentStore ρ)
    (doc : ρ) : V1DocumentStore ρ × Option DocStoreError :=
  if R.is_doc_id_none doc then (s, some .missingIdentifier)
  else if !allow_update && s.document_exists (R.get_doc_id doc) then
    (s, some (.duplicateIdentifier (R.get_doc_id doc)))
  else
    ({ docs := dictInsert (R.get_doc_id doc) doc s.docs
       ref_doc_info := refSetHash s.ref_doc_info (R.get_doc_id doc) (R.get_doc_hash doc) },
     none)

/-- `add_documents`: process the batch in order; a raised error aborts
the loop but the mutations committed before it persist. -/
def add_documents (R : RecordIface ρ δ) (s : V1DocumentStore ρ) (docs : List ρ)
    (allow_update : Bool) : V1DocumentStore ρ × Option DocStoreError :=
  match docs with
  | [] => (s, none)
  | d :: rest =>
    match add_one R allow_update s d with
    | (s', none) => add_documents R s' rest allow_update
    | (s', some err) => (s', some err)

/-- `from_documents`: build the store from a batch over an empty store. -/
def from_documents (R : RecordIface ρ δ) (docs : List ρ) :
    Except DocStoreError (V1DocumentStore ρ) :=
  match add_documents R new docs false with
  | (s, none) => .ok s
  | (_, some err) => .error err

/-- `update_docstore`: `self.docs.update(other.docs)`; `ref_doc_info` is
not touched. -/
def update_docstore (s other : V1DocumentStore ρ) : V1DocumentStore ρ :=
  { s with docs := dictUpdate s.docs other.docs }

/-- `get_document`: return the record, or raise `NotFound` / return
`None` depending on `raise_error`. -/
def get_document (s : V1DocumentStore ρ) (doc_id : String) (raise_error : Bool) :
    Except DocStoreError (Option ρ) :=
  match dictGet doc_id s.docs with
  | some d => .ok (some d)
  | none => if raise_error then .error (.notFound doc_id) else .ok none

/-- `set_document_hash`: unconditional upsert of the hash. -/
def set_document_hash (s : V1DocumentStore ρ) (doc_id doc_hash : String) :
    V1DocumentStore ρ :=
  { s with ref_doc_info := refSetHash s.ref_doc_info doc_id doc_hash }

/-- `self.ref_doc_info[doc_id]` on the `defaultdict`: return the inner
dict, inserting an empty one first when the key is missing. -/
def refDefaultGet (m : List (String × RefInfo)) (doc_id : String) :
    RefInfo × List (String × RefInfo) :=
  match dictGet doc_id m with
  | some inner => (inner, m)
  | none => ([], m ++ [(doc_id, [])])

/-- `get_document_hash`: `self.ref_doc_info[doc_id].get("doc_hash", None)`.
Because `ref_doc_info` is a `defaultdict`, the read itself may insert an
empty entry, so the (possibly updated) store is returned too. -/
def get_document_hash (s : V1DocumentStore ρ) (doc_id : String) :
    Option String × V1DocumentStore ρ :=
  let r := refDefaultGet s.ref_doc_info doc_id
  (dictGet "doc_hash" r.1, { s with ref_doc_info := r.2 })

/-- `delete_document`: pop the record and the `ref_doc_info` entry
unconditionally, then raise `NotFound` (after the pops) when the record
was absent and `raise_error` is set. -/
def delete_document (s : V1DocumentStore ρ) (doc_id : String) (raise_error : Bool) :
    V1DocumentStore ρ × Except DocStoreError (Option ρ) :=
  let doc := dictGet doc_id s.docs
  let s' : V1DocumentStore ρ :=
    { docs := dictErase doc_id s.docs, ref_doc_info := dictErase doc_id s.ref_doc_info }
  match doc with
  | some d => (s', .ok (some d))
  | none => (s', if raise_error then .error (.notFound doc_id) else .ok none)

/-- `__len__`: the number of keys of `docs`. -/
def length (s : V1DocumentStore ρ) : Nat :=
  s.docs.length

end V1DocumentStore

/-! ## A concrete record instantiation (used for witnesses) -/

/-- A small concrete record type: a `Document` with an optional identifier,
a hash and a text payload, or an `IndexStruct` of some kind. -/
inductive DemoDoc where
  | doc : Option String → String → String → DemoDoc
  | struct : String → String → String → DemoDoc
  deriving DecidableEq, Repr

/-- Concrete serialized payload: a flat string dict. -/
abbrev DemoDict := List (String × String)

def demoDocToDict : DemoDoc → DemoDict
  | .doc (some i) h t => [("doc_id", i), ("doc_hash", h), ("text", t)]
  | .doc none h t => [("doc_hash", h), ("text", t)]
  | .struct _ i h => [("doc_id", i), ("doc_hash", h)]

def demoDocumentFromDict (d : DemoDict) : DemoDoc :=
  .doc (dictGet "doc_id" d) ((dictGet "doc_hash" d).getD "") ((dictGet "text" d).getD "")

/-- `from_dict` of a concrete `IndexStruct` class of the given kind. -/
def demoStructFromDict (kind : String) (d : DemoDict) : DemoDoc :=
  .struct kind ((dictGet "doc_id" d).getD "") ((dictGet "doc_hash" d).getD "")

def demoIface : RecordIface DemoDoc DemoDict where
  is_doc_id_none := fun d => match d with | .doc none _ _ => true | _ => false
  get_doc_id := fun d => match d with | .doc oi _ _ => oi.getD "" | .struct _ i _ => i
  get_doc_hash := fun d => match d with | .doc _ h _ => h | .struct _ _ h => h
  get_type := fun d => match d with | .doc _ _ _ => "Document" | .struct k _ _ => k
  to_dict := demoDocToDict
  document_from_dict := demoDocumentFromDict

/-! ## Dictionary lemmas -/

theorem dictGet_insert {α : Type} (k k' : String) (v : α) (l : List (String × α)) :
    dictGet k (dictInsert k' v l) = if k' = k then some v else dictGet k l := by
  induction l with
  | nil => simp [dictGet, dictInsert]
  | cons p rest ih =>
    obtain ⟨a, b⟩ := p
    by_cases hak : a = k'
    · subst hak
      rw [show dictInsert a v ((a, b) :: rest) = (a, v) :: rest from by
        simp [dictInsert]]
      by_cases hk : a = k
      · simp [dictGet, hk]
      · simp [dictGet, hk]
    · rw [show dictInsert k' v ((a, b) :: rest) = (a, b) :: dictInsert k' v rest from by
        simp [dictInsert, hak]]
      by_cases hk : a = k
      · have h2 : k' ≠ k := fun h => hak (hk.trans h.symm)
        simp [dictGet, hk, h2]
      · simp [dictGet, hk, ih]

theorem dictGet_erase {α : Type} (k k' : String) (l : List (String × α)) :
    dictGet k (dictErase k' l) = if k' = k then none else dictGet k l := by
  induction l with
  | nil => simp [dictGet, dictErase]
  | cons p rest ih =>
    obtain ⟨a, b⟩ := p
    by_cases hak : a = k'
    · subst hak
      rw [show dictErase a ((a, b) :: rest) = dictErase a rest from by
        simp [dictErase]]
      by_cases hk : a = k
      · simpa [hk] using ih
      · simpa [dictGet, hk] using ih
    · rw [show dictErase k' ((a, b) :: rest) = (a, b) :: dictErase k' rest from by
        simp [dictErase, hak]]
      by_cases hk : a = k
      · have h2 : k' ≠ k := fun h => hak (hk.trans h.symm)
        simp [dictGet, hk, h2]
      · simp [dictGet, hk, ih]

theorem length_dictInsert {α : Type} (k : String) (v : α) (l : List (String × α)) :
    (dictInsert k v l).length =
      if (dictGet k l).isSome then l.length else l.length + 1 := by
  induction l with
  | nil => simp [dictGet, dictInsert]
  | cons p rest ih =>
    obtain ⟨a, b⟩ := p
    by_cases hak : a = k
    · simp [dictInsert, dictGet, hak, ih]
    · simp only [dictInsert, if_neg hak, List.length_cons, dictGet, ih,
        if_neg (fun h => hak h)]
      split
      · rfl
      · rfl

theorem mem_dictInsert {α : Type} (p : String × α) (k : String) (v : α)
    (l : List (String × α)) : p ∈ dictInsert k v l → p = (k, v) ∨ p ∈ l := by
  induction l with
  | nil =>
    intro h
    simpa [dictInsert] using h
  | cons q rest ih =>
    obtain ⟨a, b⟩ := q
    intro h
    by_cases hak : a = k
    · subst hak
      simp only [dictInsert, if_pos rfl] at h
      rcases List.mem_cons.mp h with h | h
      · exact Or.inl h
      · exact Or.inr (List.mem_cons_of_mem _ h)
    · simp only [dictInsert, if_neg hak, List.mem_cons] at h
      rcases h with h | h
      · exact Or.inr (by simp [h])
      · rcases ih h with h1 | h1
        · exact Or.inl h1
        · exact Or.inr (List.mem_cons_of_mem _ h1)

theorem dictGet_eq_none_of_not_mem {α : Type} (k : String) (l : List (String × α))
    (h : k ∉ l.map Prod.fst) : dictGet k l = none := by
  induction l with
  | nil => rfl
  | cons p rest ih =>
    obtain ⟨a, b⟩ := p
    simp only [List.map_cons, List.mem_cons] at h
    push_neg at h
    simp [dictGet, Ne.symm h.1, ih h.2]

theorem dictGet_append {α : Type} (k : String) (l1 l2 : List (String × α)) :
    dictGet k (l1 ++ l2) = (dictGet k l1).or (dictGet k l2) := by
  induction l1 with
  | nil => simp [dictGet]
  | cons p rest ih =>
    obtain ⟨a, b⟩ := p
    by_cases h : a = k <;> simp [dictGet, h, ih]

theorem mem_dictUpdate {α : Type} (p : String × α) (base other : List (String × α)) :
    p ∈ dictUpdate base other → p ∈ base ∨ p ∈ other := by
  induction other generalizing base with
  | nil =>
    intro h
    exact Or.inl h
  | cons q rest ih =>
    intro h
    rcases ih (dictInsert q.1 q.2 base) h with h1 | h1
    · rcases mem_dictInsert p q.1 q.2 base h1 with h2 | h2
      · exact Or.inr (by simp [h2])
      · exact Or.inl h2
    · exact Or.inr (List.mem_cons_of_mem _ h1)

theorem dictGet_update {α : Type} (k : String) (base other : List (String × α))
    (h : (other.map Prod.fst).Nodup) :
    dictGet k (dictUpdate base other) = (dictGet k other).or (dictGet k base) := by
  induction other generalizing base with
  | nil => simp [dictUpdate, dictGet]
  | cons p rest ih =>
    obtain ⟨a, b⟩ := p
    simp only [List.map_cons, List.nodup_cons] at h
    have step : dictUpdate base ((a, b) :: rest) = dictUpdate (dictInsert a b base) rest := rfl
    rw [step, ih _ h.2]
    by_cases hak : a = k
    · subst hak
      rw [dictGet_eq_none_of_not_mem a rest h.1]
      simp [dictGet, dictGet_insert]
    · simp [dictGet, Ne.symm hak, dictGet_insert, hak]

/-! ## Lemmas about the store operations -/

open V1DocumentStore

theorem add_documents_append {ρ δ : Type} (R : RecordIface ρ δ) (s : V1DocumentStore ρ)
    (l1 l2 : List ρ) (au : Bool) :
    add_documents R s (l1 ++ l2) au
      = match add_documents R s l1 au with
        | (s1, none) => add_documents R s1 l2 au
        | (s1, some err) => (s1, some err) := by
  induction l1 generalizing s with
  | nil => simp [add_documents]
  | cons d rest ih =>
    rcases h : add_one R au s d with ⟨s1, e⟩
    cases e with
    | none => simp [add_documents, h, ih]
    | some err => simp [add_documents, h]

/-- Committed inserts always key a record by its own identifier. -/
theorem add_one_keyed {ρ δ : Type} (R : RecordIface ρ δ) (au : Bool)
    (s : V1DocumentStore ρ) (d : ρ) (p : String × ρ)
    (hp : p ∈ (add_one R au s d).1.docs) : p ∈ s.docs ∨ R.get_doc_id p.2 = p.1 := by
  unfold add_one at hp
  split at hp
  · exact Or.inl hp
  · split at hp
    · exact Or.inl hp
    · rcases mem_dictInsert p (R.get_doc_id d) d s.docs hp with h | h
      · exact Or.inr (by rw [h])
      · exact Or.inl h

theorem add_documents_keyed {ρ δ : Type} (R : RecordIface ρ δ) (au : Bool)
    (docs : List ρ) (s : V1DocumentStore ρ) (p : String × ρ)
    (hp : p ∈ (add_documents R s docs au).1.docs) :
    p ∈ s.docs ∨ R.get_doc_id p.2 = p.1 := by
  induction docs generalizing s with
  | nil => exact Or.inl hp
  | cons d rest ih =>
    rcases h : add_one R au s d with ⟨s1, e⟩
    cases e with
    | none =>
      simp only [add_documents, h] at hp
      rcases ih s1 hp with h1 | h1
      · have h2 : p ∈ (add_one R au s d).1.docs := by rw [h]; exact h1
        exact add_one_keyed R au s d p h2
      · exact Or.inr h1
    | some err =>
      simp only [add_documents, h] at hp
      have h2 : p ∈ (add_one R au s d).1.docs := by rw [h]; exact hp
      exact add_one_keyed R au s d p h2

/-- Every record stored under a key carries that key as its own identifier. -/
def StoreKeyed {ρ δ : Type} (R : RecordIface ρ δ) (s : V1DocumentStore ρ) : Prop :=
  ∀ p ∈ s.docs, R.get_doc_id p.2 = p.1

/-- The stores reachable from an empty store by the mutating operations,
with record arguments carrying set identifiers and merge arguments
themselves keyed consistently.  A call that raises still contributes the
store state it left behind. -/
inductive Reachable {ρ δ : Type} (R : RecordIface ρ δ) : V1DocumentStore ρ → Prop where
  | new : Reachable R V1DocumentStore.new
  | add (s : V1DocumentStore ρ) (docs : List ρ) (au : Bool)
      (hs : Reachable R s) (hdocs : ∀ d ∈ docs, R.is_doc_id_none d = false) :
      Reachable R (add_documents R s docs au).1
  | merge (s other : V1DocumentStore ρ) (hs : Reachable R s)
      (hother : StoreKeyed R other) :
      Reachable R (s.update_docstore other)
  | del (s : V1DocumentStore ρ) (doc_id : String) (re : Bool) (hs : Reachable R s) :
      Reachable R (s.delete_document doc_id re).1
  | set_hash (s : V1DocumentStore ρ) (doc_id doc_hash : String) (hs : Reachable R s) :
      Reachable R (s.set_document_hash doc_id doc_hash)

/-! ## Lemmas about deserialization -/

theorem load_docs_ok_mem {ρ δ : Type} (R : RecordIface ρ δ)
    (reg : Option (TypeRegistry ρ δ)) (l : List (String × SerializedDoc δ))
    (ds : List (String × ρ)) (hload : load_docs R reg l = .ok ds)
    (i : String) (e : SerializedDoc δ) (hmem : (i, e) ∈ l) :
    ∃ d, from_dict_entry R reg e = .ok d ∧ (i, d) ∈ ds := by
  induction l generalizing ds with
  | nil => cases hmem
  | cons q rest ih =>
    obtain ⟨i1, e1⟩ := q
    rcases h1 : from_dict_entry R reg e1 with err | d1
    · rw [show load_docs R reg ((i1, e1) :: rest) = .error err from by
        simp [load_docs, h1]] at hload
      cases hload
    · rcases h2 : load_docs R reg rest with err | ds1
      · rw [show load_docs R reg ((i1, e1) :: rest) = .error err from by
          simp [load_docs, h1, h2]] at hload
        cases hload
      · rw [show load_docs R reg ((i1, e1) :: rest) = .ok ((i1, d1) :: ds1) from by
          simp [load_docs, h1, h2]] at hload
        obtain rfl : (i1, d1) :: ds1 = ds := by cases hload; rfl
        rcases List.mem_cons.mp hmem with h3 | h3
        · injection h3 with hi he
          subst hi
          subst he
          exact ⟨d1, h1, List.mem_cons_self _ _⟩
        · obtain ⟨d, hd1, hd2⟩ := ih ds1 h2 h3
          exact ⟨d, hd1, List.mem_cons_of_mem _ hd2⟩

theorem load_docs_error_mem {ρ δ : Type} (R : RecordIface ρ δ)
    (reg : Option (TypeRegistry ρ δ)) (l : List (String × SerializedDoc δ))
    (err : DocStoreError) (hload : load_docs R reg l = .error err) :
    ∃ i e, (i, e) ∈ l ∧ from_dict_entry R reg e = .error err := by
  induction l with
  | nil => cases hload
  | cons q rest ih =>
    obtain ⟨i1, e1⟩ := q
    rcases h1 : from_dict_entry R reg e1 with err1 | d1
    · rw [show load_docs R reg ((i1, e1) :: rest) = .error err1 from by
        simp [load_docs, h1]] at hload
      obtain rfl : err1 = err := by cases hload; rfl
      exact ⟨i1, e1, List.mem_cons_self _ _, h1⟩
    · rcases h2 : load_docs R reg rest with err2 | ds1
      · rw [show load_docs R reg ((i1, e1) :: rest) = .error err2 from by
          simp [load_docs, h1, h2]] at hload
        obtain rfl : err2 = err := by cases hload; rfl
        obtain ⟨i, e, hmem, he⟩ := ih h2
        exact ⟨i, e, List.mem_cons_of_mem _ hmem, he⟩
      · rw [show load_docs R reg ((i1, e1) :: rest) = .ok ((i1, d1) :: ds1) from by
          simp [load_docs, h1, h2]] at hload
        cases hload

/-- Every failure of the per-entry dispatch is of the `UnregisteredType`
kind: either the registry was absent or the tag was not one of its keys. -/
theorem from_dict_entry_error_kind {ρ δ : Type} (R : RecordIface ρ δ)
    (reg : Option (TypeRegistry ρ δ)) (e : SerializedDoc δ) (err : DocStoreError)
    (herr : from_dict_entry R reg e = .error err) : err.isUnregisteredType = true := by
  obtain ⟨tg, payload⟩ := e
  cases tg with
  | none => cases herr
  | some t =>
    by_cases ht : t = "Document"
    · rw [show from_dict_entry R reg (some t, payload)
          = .ok (R.document_from_dict payload) from by simp [from_dict_entry, ht]] at herr
      cases herr
    · cases reg with
      | none =>
        obtain rfl : DocStoreError.registryAbsent = err := by
          rw [show from_dict_entry R none (some t, payload)
              = .error .registryAbsent from by simp [from_dict_entry, ht]] at herr
          cases herr
          rfl
        rfl
      | some r =>
        rcases hr : dictGet t r with _ | fd
        · obtain rfl : DocStoreError.unregisteredType t = err := by
            rw [show from_dict_entry R (some r) (some t, payload)
                = .error (.unregisteredType t) from by simp [from_dict_entry, ht, hr]] at herr
            cases herr
            rfl
          rfl
        · rw [show from_dict_entry R (some r) (some t, payload)
              = .ok (fd payload) from by simp [from_dict_entry, ht, hr]] at herr
          cases herr

/-- Inversion of `from_dict`: a successful result is the loaded docs list
plus the input's `ref_doc_info` (defaulted when absent). -/
theorem from_dict_ok_inv {ρ δ : Type} (R : RecordIface ρ δ) (sd : SerializedStore δ)
    (reg : Option (TypeRegistry ρ δ)) (s' : V1DocumentStore ρ)
    (h : from_dict R sd reg = .ok s') :
    load_docs R reg sd.docs = .ok s'.docs
    ∧ s'.ref_doc_info = sd.ref_doc_info.getD [] := by
  rcases hload : load_docs R reg sd.docs with err | ds
  · rw [show from_dict R sd reg = .error err from by simp [from_dict, hload]] at h
    cases h
  · rw [show from_dict R sd reg = .ok ⟨ds, sd.ref_doc_info.getD []⟩ from by
      simp [from_dict, hload]] at h
    obtain rfl : (⟨ds, sd.ref_doc_info.getD []⟩ : V1DocumentStore ρ) = s' := by
      cases h
      rfl
    exact ⟨rfl, rfl⟩

/-- If any entry of the serialized docs fails to deserialize, the whole
`from_dict` fails, and with an `UnregisteredType`-kind error. -/
theorem from_dict_fails_of_entry_fails {ρ δ : Type} (R : RecordIface ρ δ)
    (sd : SerializedStore δ) (reg : Option (TypeRegistry ρ δ))
    (i : String) (e : SerializedDoc δ) (err0 : DocStoreError)
    (hmem : (i, e) ∈ sd.docs) (herr : from_dict_entry R reg e = .error err0) :
    ∃ err, from_dict R sd reg = .error err ∧ err.isUnregisteredType = true := by
  rcases hload : load_docs R reg sd.docs with err | ds
  · refine ⟨err, by simp [from_dict, hload], ?_⟩
    obtain ⟨i2, e2, _, h2⟩ := load_docs_error_mem R reg sd.docs err hload
    exact from_dict_entry_error_kind R reg e2 err h2
  · obtain ⟨d, hd, _⟩ := load_docs_ok_mem R reg sd.docs ds hload i e hmem
    rw [herr] at hd
    cases hd

/-- Bulk insertion of fresh records: no error, every record retrievable
under its identifier, length grows by the batch size, and other keys are
untouched. -/
theorem add_documents_fresh {ρ δ : Type} (R : RecordIface ρ δ)
    (docs : List ρ) (s : V1DocumentStore ρ)
    (h1 : ∀ d ∈ docs, R.is_doc_id_none d = false)
    (h2 : (docs.map R.get_doc_id).Nodup)
    (h3 : ∀ d ∈ docs, dictGet (R.get_doc_id d) s.docs = none) :
    (add_documents R s docs false).2 = none
    ∧ (∀ d ∈ docs,
        dictGet (R.get_doc_id d) (add_documents R s docs false).1.docs = some d)
    ∧ (add_documents R s docs false).1.docs.length = s.docs.length + docs.length
    ∧ (∀ k, (∀ d ∈ docs, R.get_doc_id d ≠ k) →
        dictGet k (add_documents R s docs false).1.docs = dictGet k s.docs) := by
  induction docs generalizing s with
  | nil => exact ⟨rfl, by simp, by simp [add_documents], fun k _ => rfl⟩
  | cons d rest ih =>
    have hd1 : R.is_doc_id_none d = false := h1 d (List.mem_cons_self _ _)
    have hd3 : dictGet (R.get_doc_id d) s.docs = none := h3 d (List.mem_cons_self _ _)
    have h2' := h2
    rw [List.map_cons, List.nodup_cons] at h2'
    have hdfresh : R.get_doc_id d ∉ rest.map R.get_doc_id := h2'.1
    set s1 : V1DocumentStore ρ :=
      { docs := dictInsert (R.get_doc_id d) d s.docs
        ref_doc_info := refSetHash s.ref_doc_info (R.get_doc_id d) (R.get_doc_hash d) }
      with hs1
    have hstep : add_one R false s d = (s1, none) := by
      simp [add_one, hd1, document_exists, hd3, hs1]
    have hrec : add_documents R s (d :: rest) false = add_documents R s1 rest false := by
      simp [add_documents, hstep]
    have h3' : ∀ d' ∈ rest, dictGet (R.get_doc_id d') s1.docs = none := by
      intro d' hd'
      have hne : R.get_doc_id d ≠ R.get_doc_id d' := by
        intro hcontra
        exact hdfresh (hcontra ▸ List.mem_map_of_mem R.get_doc_id hd')
      rw [hs1]
      simp only [dictGet_insert, if_neg hne]
      exact h3 d' (List.mem_cons_of_mem _ hd')
    obtain ⟨ihe, ihget, ihlen, ihframe⟩ :=
      ih s1 (fun d' hd' => h1 d' (List.mem_cons_of_mem _ hd')) h2'.2 h3'
    rw [hrec]
    refine ⟨ihe, ?_, ?_, ?_⟩
    · intro d' hd'
      rcases List.mem_cons.mp hd' with h4 | h4
      · subst h4
        rw [ihframe (R.get_doc_id d') (fun d2 hd2 h5 => hdfresh (h5 ▸ List.mem_map_of_mem R.get_doc_id hd2))]
        rw [hs1]
        simp [dictGet_insert]
      · exact ihget d' h4
    · rw [ihlen, hs1]
      simp only [length_dictInsert, hd3, Option.isSome_none, Bool.false_eq_true,
        if_false, List.length_cons]
      omega
    · intro k hk
      rw [ihframe k (fun d2 hd2 => hk d2 (List.mem_cons_of_mem _ hd2)), hs1]
      simp only [dictGet_insert, if_neg (hk d (List.mem_cons_self _ _))]

/-- Round-trip of `load_docs` over `to_dict`-shaped entries whose records
all round-trip through the registry dispatch. -/
theorem load_docs_roundtrip {ρ δ : Type} (R : RecordIface ρ δ) (reg : TypeRegistry ρ δ)
    (l : List (String × ρ))
    (h : ∀ p ∈ l, if R.get_type p.2 = "Document"
        then R.document_from_dict (R.to_dict p.2) = p.2
        else ∃ fd, dictGet (R.get_type p.2) reg = some fd ∧ fd (R.to_dict p.2) = p.2) :
    load_docs R (some reg) (l.map fun p => (p.1, (some (R.get_type p.2), R.to_dict p.2)))
      = .ok l := by
  induction l with
  | nil => rfl
  | cons p rest ih =>
    obtain ⟨i, d⟩ := p
    have hp := h (i, d) (List.mem_cons_self _ _)
    have hentry : from_dict_entry R (some reg) (some (R.get_type d), R.to_dict d) = .ok d := by
      by_cases ht : R.get_type d = "Document"
      · rw [if_pos ht] at hp
        simp [from_dict_entry, ht, hp]
      · rw [if_neg ht] at hp
        obtain ⟨fd, hfd, hfd2⟩ := hp
        simp [from_dict_entry, ht, hfd, hfd2]
    have hrest := ih (fun q hq => h q (List.mem_cons_of_mem _ hq))
    simp [load_docs, hentry, hrest]

/-! ## Concrete fixtures for the witnesses -/

def docA : DemoDoc := .doc (some "a") "h1" "ta"

def docB : DemoDoc := .doc (some "b") "h2" "tb"

/-- A replacement record carrying the identifier `"a"` with a new hash. -/
def docA9 : DemoDoc := .doc (some "a") "h9" "x"

/-- A record whose identifier is unset. -/
def docU : DemoDoc := .doc none "h0" "u"

def structT : DemoDoc := .struct "Tree" "t1" "h3"

def demoRegistry : TypeRegistry DemoDoc DemoDict := [("Tree", demoStructFromDict "Tree")]

/-- A mixed document / index-structure store. -/
def demoStore : V1DocumentStore DemoDoc :=
  ⟨[("a", docA), ("t1", structT)],
   [("a", [("doc_hash", "h1")]), ("t1", [("doc_hash", "h3")])]⟩

/-- A store holding just the document `"a"`. -/
def dupStore : V1DocumentStore DemoDoc :=
  ⟨[("a", docA)], [("a", [("doc_hash", "h1")])]⟩

/-- A merge argument colliding with `dupStore` on `"a"`. -/
def mergeB : V1DocumentStore DemoDoc := ⟨[("a", docA9)], []⟩

/-- A serialized store with one index-structure entry tagged `"Tree"`. -/
def sd8 : SerializedStore DemoDict :=
  ⟨[("t1", (some "Tree", [("doc_id", "t1"), ("doc_hash", "h3")]))], some []⟩

/-! ## The claims -/

/-- C2: for a store already containing `doc_id` and a record `r` carrying
that identifier (not unset), `add_documents [r]` with `allow_update=false`
fails with `DuplicateIdentifier` and leaves the store (hence the stored
record and its recorded hash) unchanged; with `allow_update=true` it
replaces `docs[doc_id]` with `r` and sets
`ref_doc_info[doc_id]["doc_hash"]` to `r`'s content hash. -/
theorem claim_C2 {ρ δ : Type} (R : RecordIface ρ δ) (s : V1DocumentStore ρ)
    (doc_id : String) (d0 r : ρ)
    (hex : dictGet doc_id s.docs = some d0)
    (hid : R.get_doc_id r = doc_id)
    (hset : R.is_doc_id_none r = false) :
    add_documents R s [r] false = (s, some (.duplicateIdentifier doc_id))
    ∧ (add_documents R s [r] true).2 = none
    ∧ dictGet doc_id (add_documents R s [r] true).1.docs = some r
    ∧ (dictGet doc_id (add_documents R s [r] true).1.ref_doc_info).bind
        (dictGet "doc_hash") = some (R.get_doc_hash r) := by
  subst hid
  refine ⟨?_, ?_, ?_, ?_⟩
  · simp [add_documents, add_one, hset, document_exists, hex]
  · simp [add_documents, add_one, hset]
  · simp [add_documents, add_one, hset, dictGet_insert]
  · simp [add_documents, add_one, hset, refSetHash, dictGet_insert]

/-- Witness for C2: re-inserting `"a"` into `dupStore`. -/
theorem claim_C2_witness :
    add_documents demoIface dupStore [docA9] false
      = (dupStore, some (.duplicateIdentifier "a"))
    ∧ (add_documents demoIface dupStore [docA9] true).2 = none
    ∧ dictGet "a" (add_documents demoIface dupStore [docA9] true).1.docs = some docA9
    ∧ (dictGet "a" (add_documents demoIface dupStore [docA9] true).1.ref_doc_info).bind
        (dictGet "doc_hash") = some (demoIface.get_doc_hash docA9) :=
  claim_C2 demoIface dupStore "a" docA docA9 (by decide) (by decide) (by decide)

/-- C3: `delete_document` removes any `ref_doc_info` entry unconditionally
(no error when absent); a present record is removed and returned; an
absent record yields `NotFound` when `raise_error` is set (the
`ref_doc_info` entry still being removed) and an absent result otherwise. -/
theorem claim_C3 {ρ : Type} (s : V1DocumentStore ρ) (doc_id : String) (re : Bool) :
    dictGet doc_id (s.delete_document doc_id re).1.ref_doc_info = none
    ∧ (∀ d, dictGet doc_id s.docs = some d →
        (s.delete_document doc_id re).2 = .ok (some d)
        ∧ dictGet doc_id (s.delete_document doc_id re).1.docs = none)
    ∧ (dictGet doc_id s.docs = none →
        (s.delete_document doc_id true).2 = .error (.notFound doc_id)
        ∧ (s.delete_document doc_id false).2 = .ok none) := by
  refine ⟨?_, ?_, ?_⟩
  · rcases h : dictGet doc_id s.docs with _ | d <;>
      simp [delete_document, h, dictGet_erase]
  · intro d hd
    simp [delete_document, hd, dictGet_erase]
  · intro hnone
    constructor <;> simp [delete_document, hnone]

/-- Witness for C3: deleting the present identifier `"a"` from `dupStore`. -/
theorem claim_C3_witness :
    (dupStore.delete_document "a" true).2 = .ok (some docA)
    ∧ dictGet "a" (dupStore.delete_document "a" true).1.docs = none :=
  (claim_C3 dupStore "a" true).2.1 docA (by decide)

/-- C4: adding a batch of records with pairwise-distinct, set identifiers
to the empty store succeeds, every record is retrievable under its
identifier, and the length equals the batch size. -/
theorem claim_C4 {ρ δ : Type} (R : RecordIface ρ δ) (docs : List ρ)
    (h1 : ∀ d ∈ docs, R.is_doc_id_none d = false)
    (h2 : (docs.map R.get_doc_id).Nodup) :
    (add_documents R V1DocumentStore.new docs false).2 = none
    ∧ (∀ d ∈ docs,
        get_document (add_documents R V1DocumentStore.new docs false).1
          (R.get_doc_id d) true = .ok (some d))
    ∧ V1DocumentStore.length (add_documents R V1DocumentStore.new docs false).1
        = docs.length := by
  obtain ⟨he, hget, hlen, _⟩ :=
    add_documents_fresh R docs V1DocumentStore.new h1 h2 (fun d _ => rfl)
  refine ⟨he, fun d hd => ?_, ?_⟩
  · simp [get_document, hget d hd]
  · simpa [V1DocumentStore.length, V1DocumentStore.new] using hlen

/-- Witness for C4: the batch `[docA, docB]`. -/
theorem claim_C4_witness :
    (add_documents demoIface V1DocumentStore.new [docA, docB] false).2 = none
    ∧ get_document (add_documents demoIface V1DocumentStore.new [docA, docB] false).1
        (demoIface.get_doc_id docA) true = .ok (some docA)
    ∧ V1DocumentStore.length
        (add_documents demoIface V1DocumentStore.new [docA, docB] false).1 = 2 := by
  obtain ⟨he, hget, hlen⟩ := claim_C4 demoIface [docA, docB] (by decide) (by decide)
  exact ⟨he, hget docA (by decide), hlen⟩

/-- C5: a batch containing a record with an unset identifier fails with
`MissingIdentifier` once processing reaches that record, for either value
of `allow_update`; since no `DuplicateIdentifier` case is excluded here,
the unset check precedes the duplicate check. -/
theorem claim_C5 {ρ δ : Type} (R : RecordIface ρ δ) (s : V1DocumentStore ρ)
    (pre post : List ρ) (r : ρ) (au : Bool)
    (hunset : R.is_doc_id_none r = true)
    (hpre : (add_documents R s pre au).2 = none) :
    add_documents R s (pre ++ r :: post) au
      = ((add_documents R s pre au).1, some .missingIdentifier) := by
  rcases hsplit : add_documents R s pre au with ⟨s1, e⟩
  rw [hsplit] at hpre
  obtain rfl : e = none := hpre
  rw [add_documents_append, hsplit]
  simp [add_documents, add_one, hunset]

/-- Witness for C5: `docU` (unset identifier) after a successful prefix. -/
theorem claim_C5_witness :
    add_documents demoIface V1DocumentStore.new ([docA] ++ docU :: []) false
      = ((add_documents demoIface V1DocumentStore.new [docA] false).1,
         some .missingIdentifier) :=
  claim_C5 demoIface V1DocumentStore.new [docA] [] docU false (by decide) (by decide)

/-- C6: `update_docstore` makes `docs` the key-wise union of the two
stores with `other` winning on collisions, and leaves `ref_doc_info`
exactly unchanged. -/
theorem claim_C6 {ρ : Type} (s other : V1DocumentStore ρ)
    (h : (other.docs.map Prod.fst).Nodup) :
    (∀ k, dictGet k (s.update_docstore other).docs
        = (dictGet k other.docs).or (dictGet k s.docs))
    ∧ (s.update_docstore other).ref_doc_info = s.ref_doc_info :=
  ⟨fun k => by simpa [update_docstore] using dictGet_update k s.docs other.docs h, rfl⟩

/-- Witness for C6: merging `mergeB` into `dupStore`, colliding on `"a"`. -/
theorem claim_C6_witness :
    dictGet "a" (dupStore.update_docstore mergeB).docs
      = (dictGet "a" mergeB.docs).or (dictGet "a" dupStore.docs)
    ∧ (dupStore.update_docstore mergeB).ref_doc_info = dupStore.ref_doc_info :=
  ⟨(claim_C6 dupStore mergeB (by decide)).1 "a",
   (claim_C6 dupStore mergeB (by decide)).2⟩

/-- C1: `from_dict (to_dict s) registry` returns a store equal to `s` —
same `docs` and same `ref_doc_info` — whenever every stored record
round-trips through the tag dispatch: a record tagged `"Document"`
through `Document.from_dict`, and any other tag through a registry entry
present for that tag.  The store may mix documents and index
structures. -/
theorem claim_C1 {ρ δ : Type} (R : RecordIface ρ δ) (s : V1DocumentStore ρ)
    (reg : TypeRegistry ρ δ)
    (h : ∀ p ∈ s.docs, if R.get_type p.2 = "Document"
        then R.document_from_dict (R.to_dict p.2) = p.2
        else ∃ fd, dictGet (R.get_type p.2) reg = some fd ∧ fd (R.to_dict p.2) = p.2) :
    from_dict R (to_dict R s) (some reg) = .ok s := by
  have hload := load_docs_roundtrip R reg s.docs h
  simp [from_dict, to_dict, hload]

/-- Witness for C1 at the mixed store `demoStore` with `demoRegistry`. -/
theorem claim_C1_witness :
    from_dict demoIface (to_dict demoIface demoStore) (some demoRegistry)
      = .ok demoStore := by
  refine claim_C1 demoIface demoStore demoRegistry ?_
  intro p hp
  rcases List.mem_cons.mp hp with h1 | h1
  · subst h1
    simp [demoIface, docA, demoDocToDict, demoDocumentFromDict, dictGet]
  · rcases List.mem_cons.mp h1 with h2 | h2
    · subst h2
      rw [if_neg (by decide)]
      exact ⟨demoStructFromDict "Tree", rfl, rfl⟩
    · cases h2

/-- C7: every store reachable from the empty store via `add_documents`,
`update_docstore`, `delete_document` and `set_document_hash` (record
arguments carrying set identifiers; merge arguments keyed consistently)
keys every record by that record's own identifier. -/
theorem claim_C7 {ρ δ : Type} (R : RecordIface ρ δ) (s : V1DocumentStore ρ)
    (h : Reachable R s) : StoreKeyed R s := by
  induction h with
  | new =>
    intro p hp
    cases hp
  | add s docs au hs hdocs ih =>
    intro p hp
    rcases add_documents_keyed R au docs s p hp with h1 | h1
    · exact ih p h1
    · exact h1
  | merge s other hs hother ih =>
    intro p hp
    rcases mem_dictUpdate p s.docs other.docs hp with h1 | h1
    · exact ih p h1
    · exact hother p h1
  | del s doc_id re hs ih =>
    intro p hp
    have hp' : p ∈ dictErase doc_id s.docs := by
      rcases hd : dictGet doc_id s.docs with _ | d <;>
        simpa [delete_document, hd] using hp
    exact ih p (List.mem_of_mem_filter hp')
  | set_hash s doc_id doc_hash hs ih => exact ih

/-- Witness for C7: the store built by one `add_documents` call. -/
theorem claim_C7_witness : demoIface.get_doc_id docA = "a" :=
  claim_C7 demoIface _
    (Reachable.add V1DocumentStore.new [docA] false Reachable.new (by decide))
    ("a", docA) (by decide)

/-- C8: a serialized docs entry with a present tag other than
`"Document"` makes `from_dict` fail with an `UnregisteredType`-kind
error when no registry is supplied, likewise when the tag is not a
registry key; when the tag is a key, the entry deserializes via that
registry entry applied to the remaining fields. -/
theorem claim_C8 {ρ δ : Type} (R : RecordIface ρ δ) (sd : SerializedStore δ)
    (i t : String) (payload : δ)
    (hmem : (i, (some t, payload)) ∈ sd.docs) (ht : t ≠ "Document") :
    (∃ err, from_dict R sd none = .error err ∧ err.isUnregisteredType = true)
    ∧ (∀ reg : TypeRegistry ρ δ, dictGet t reg = none →
        ∃ err, from_dict R sd (some reg) = .error err ∧ err.isUnregisteredType = true)
    ∧ (∀ (reg : TypeRegistry ρ δ) (fd : δ → ρ), dictGet t reg = some fd →
        ∀ s', from_dict R sd (some reg) = .ok s' → (i, fd payload) ∈ s'.docs) := by
  refine ⟨?_, ?_, ?_⟩
  · exact from_dict_fails_of_entry_fails R sd none i (some t, payload) .registryAbsent
      hmem (by simp [from_dict_entry, ht])
  · intro reg hreg
    exact from_dict_fails_of_entry_fails R sd (some reg) i (some t, payload)
      (.unregisteredType t) hmem (by simp [from_dict_entry, ht, hreg])
  · intro reg fd hreg s' hok
    obtain ⟨hload, _⟩ := from_dict_ok_inv R sd (some reg) s' hok
    obtain ⟨d, hd1, hd2⟩ := load_docs_ok_mem R (some reg) sd.docs s'.docs hload i _ hmem
    rw [show from_dict_entry R (some reg) (some t, payload) = .ok (fd payload) from by
      simp [from_dict_entry, ht, hreg]] at hd1
    obtain rfl : fd payload = d := by
      cases hd1
      rfl
    exact hd2

/-- Witness for C8: the `"Tree"` entry of `sd8` deserializes through
`demoRegistry`. -/
theorem claim_C8_witness :
    ("t1", demoStructFromDict "Tree" [("doc_id", "t1"), ("doc_hash", "h3")])
      ∈ (⟨[("t1", DemoDoc.struct "Tree" "t1" "h3")], []⟩ : V1DocumentStore DemoDoc).docs :=
  (claim_C8 demoIface sd8 "t1" "Tree" [("doc_id", "t1"), ("doc_hash", "h3")]
      (by decide) (by decide)).2.2 demoRegistry (demoStructFromDict "Tree") rfl
    ⟨[("t1", DemoDoc.struct "Tree" "t1" "h3")], []⟩ rfl

/-- C9: a docs entry lacking `__type__`, or tagged `"Document"`,
deserializes via `Document.from_dict` on the remaining fields, whether or
not a registry is supplied. -/
theorem claim_C9 {ρ δ : Type} (R : RecordIface ρ δ) (reg : Option (TypeRegistry ρ δ))
    (tg : Option String) (payload : δ)
    (h : tg = none ∨ tg = some "Document") :
    from_dict_entry R reg (tg, payload) = .ok (R.document_from_dict payload)
    ∧ ∀ (sd : SerializedStore δ) (i : String) (s' : V1DocumentStore ρ),
        (i, (tg, payload)) ∈ sd.docs → from_dict R sd reg = .ok s' →
        (i, R.document_from_dict payload) ∈ s'.docs := by
  have hentry : from_dict_entry R reg (tg, payload) = .ok (R.document_from_dict payload) := by
    rcases h with rfl | rfl
    · rfl
    · simp [from_dict_entry]
  refine ⟨hentry, fun sd i s' hmem hok => ?_⟩
  obtain ⟨hload, _⟩ := from_dict_ok_inv R sd reg s' hok
  obtain ⟨d, hd1, hd2⟩ := load_docs_ok_mem R reg sd.docs s'.docs hload i _ hmem
  rw [hentry] at hd1
  obtain rfl : R.document_from_dict payload = d := by
    cases hd1
    rfl
  exact hd2

/-- Witness for C9: an untagged entry, no registry supplied. -/
theorem claim_C9_witness :
    from_dict_entry demoIface none ((none : Option String), [("doc_hash", "h1"), ("text", "x")])
      = .ok (demoIface.document_from_dict [("doc_hash", "h1"), ("text", "x")]) :=
  (claim_C9 demoIface none none [("doc_hash", "h1"), ("text", "x")] (Or.inl rfl)).1

/-- C10: `get_document_hash` on an identifier with no `ref_doc_info`
entry returns `None` without failing but, through the `defaultdict`,
inserts an empty metadata record for it, so the identifier subsequently
appears (with no hash) as a key of `to_dict()["ref_doc_info"]`;
`docs` is untouched. -/
theorem claim_C10 {ρ δ : Type} (R : RecordIface ρ δ) (s : V1DocumentStore ρ)
    (doc_id : String) (h : dictGet doc_id s.ref_doc_info = none) :
    (s.get_document_hash doc_id).1 = none
    ∧ (s.get_document_hash doc_id).2.docs = s.docs
    ∧ dictGet doc_id (s.get_document_hash doc_id).2.ref_doc_info = some []
    ∧ dictGet doc_id ((to_dict R (s.get_document_hash doc_id).2).ref_doc_info.getD [])
        = some [] := by
  have hdef : refDefaultGet s.ref_doc_info doc_id
      = ([], s.ref_doc_info ++ [(doc_id, [])]) := by
    simp [refDefaultGet, h]
  refine ⟨?_, rfl, ?_, ?_⟩
  · simp [get_document_hash, hdef, dictGet]
  · simp [get_document_hash, hdef, dictGet_append, h, dictGet]
  · simp [to_dict, get_document_hash, hdef, dictGet_append, h, dictGet]

/-- Witness for C10: reading the hash of the absent identifier `"z"`. -/
theorem claim_C10_witness :
    (dupStore.get_document_hash "z").1 = none
    ∧ (dupStore.get_document_hash "z").2.docs = dupStore.docs
    ∧ dictGet "z" (dupStore.get_document_hash "z").2.ref_doc_info = some []
    ∧ dictGet "z" ((to_dict demoIface (dupStore.get_document_hash "z").2).ref_doc_info.getD [])
        = some [] :=
  claim_C10 demoIface dupStore "z" (by decide)

end GptIndex
